import Mathlib

/-!
# Manifest builder (`tools/manifests/manifest_builder.go`)

A shallow embedding of the manifest generator: option check, optional image
digest resolution, template processing and composition, and saving the output.

Go strings are modelled as `String`.  The collaborators that live outside the
repository are either modelled after their documented behaviour (the
`strings`, `path/filepath`, `os` and `io/ioutil` functions that `main` calls)
or taken as parameters (`Env`: the `docker` subprocess and the `text/template`
engine).  The file system is an explicit state; every externally visible
action of a run is recorded as an `Event`.
-/

namespace ManifestBuilder

/-! ## Go standard library: `strings` -/

/-- Go `unicode.IsSpace`: the Latin-1 spaces and the code points with the
Unicode White_Space property. -/
def isSpace (c : Char) : Bool :=
  let n := c.toNat
  n = 0x09 || n = 0x0A || n = 0x0B || n = 0x0C || n = 0x0D || n = 0x20 ||
  n = 0x85 || n = 0xA0 || n = 0x1680 || (0x2000 ≤ n && n ≤ 0x200A) ||
  n = 0x2028 || n = 0x2029 || n = 0x202F || n = 0x205F || n = 0x3000

/-- Go `strings.TrimSpace`: all leading and trailing white space removed. -/
def TrimSpace (s : String) : String :=
  ⟨((s.data.dropWhile isSpace).reverse.dropWhile isSpace).reverse⟩

/-! ## Go standard library: `path/filepath` (Unix) -/

/-- The pieces of `cs` between the occurrences of `sep`; always at least one piece. -/
def splitChar (sep : Char) : List Char → List (List Char)
  | [] => [[]]
  | c :: cs =>
    if c = sep then [] :: splitChar sep cs
    else
      match splitChar sep cs with
      | [] => [[c]]
      | l :: ls => (c :: l) :: ls

/-- One step of the lexical processing of `filepath.Clean`, on a stack of the
components kept so far (innermost first). -/
def cleanStep (rooted : Bool) (stack : List (List Char)) (comp : List Char) : List (List Char) :=
  if comp = [] ∨ comp = ['.'] then stack
  else if comp = ['.', '.'] then
    match stack with
    | top :: rest => if top = ['.', '.'] then comp :: stack else rest
    | [] => if rooted then [] else [comp]
  else comp :: stack

/-- The components of the cleaned path, outermost first. -/
def cleanComponents (p : List Char) : List (List Char) :=
  ((splitChar '/' p).foldl (cleanStep (p.head? = some '/')) []).reverse

/-- Components joined by single slashes. -/
def joinComponents (comps : List (List Char)) : List Char :=
  List.intercalate ['/'] comps

namespace filepath

/-- Go `filepath.IsAbs` on Unix. -/
def IsAbs (p : String) : Bool := p.data.head? = some '/'

/-- Go `filepath.Clean`: the shortest path name equivalent to `p` by purely
lexical processing. -/
def Clean (p : String) : String :=
  if p = "" then "."
  else
    let comps := cleanComponents p.data
    if IsAbs p then ⟨'/' :: joinComponents comps⟩
    else if comps = [] then "."
    else ⟨joinComponents comps⟩

/-- Go `filepath.Join` of two elements: empty elements before the first
non-empty one are ignored and the result is cleaned. -/
def Join (a b : String) : String :=
  if a ≠ "" then Clean (a ++ "/" ++ b)
  else if b ≠ "" then Clean b
  else ""

/-- Go `filepath.Base`: the last element of the path, after removing trailing slashes. -/
def Base (p : String) : String :=
  if p = "" then "."
  else
    let stripped := p.data.reverse.dropWhile (· = '/')
    let last := (stripped.takeWhile (· ≠ '/')).reverse
    if last = [] then "/" else ⟨last⟩

/-- Go `filepath.Dir`: all but the last element of the path, cleaned. -/
def Dir (p : String) : String :=
  Clean ⟨(p.data.reverse.dropWhile (· ≠ '/')).reverse⟩

/-- Go `filepath.Abs`: an absolute path is cleaned, a relative one is joined
to the working directory; it fails exactly when `os.Getwd` fails. -/
def Abs (cwd : String) (getwdOk : Bool) (p : String) : Option String :=
  if IsAbs p then some (Clean p)
  else if getwdOk then some (Join cwd p)
  else none

end filepath

/-! ## File system (`os`, `io/ioutil`) -/

/-- Directories and regular files, keyed by absolute clean path.  Permissions
and symbolic links are not modelled. -/
structure FS where
  dirs : List String
  files : List (String × String)
deriving DecidableEq

/-- How the operating system resolves a path name against the working directory. -/
def resolve (cwd p : String) : String :=
  if filepath.IsAbs p then filepath.Clean p else filepath.Clean (cwd ++ "/" ++ p)

/-- The absolute path of a list of components. -/
def pathOf (comps : List (List Char)) : String := ⟨'/' :: joinComponents comps⟩

/-- The directory `p` and all its ancestors, root first; `p` absolute and clean. -/
def selfAndAncestors (p : String) : List String :=
  (cleanComponents p.data).inits.map pathOf

/-- Reading a file (`ioutil.ReadFile`, as used by `ParseFiles`). -/
def ReadFile (fs : FS) (cwd p : String) : Option String :=
  if p = "" then none else fs.files.lookup (resolve cwd p)

/-- Go `os.MkdirAll`: creates the directory `p` and any missing parents; does
nothing when `p` is a directory already; fails when `p` or one of its
ancestors exists and is not a directory. -/
def MkdirAll (fs : FS) (cwd p : String) : Option FS :=
  if p = "" then none
  else
    let chain := selfAndAncestors (resolve cwd p)
    if chain.any (fun d => (fs.files.lookup d).isSome) then none
    else some { fs with dirs := fs.dirs ++ chain.filter (fun d => d ∉ fs.dirs) }

/-- Go `ioutil.WriteFile`: creates the file or truncates it, then writes
`data`; fails when the path names a directory or its parent directory does
not exist. -/
def WriteFile (fs : FS) (cwd p data : String) : Option FS :=
  let abs := resolve cwd p
  if p = "" ∨ abs ∈ fs.dirs ∨ filepath.Dir abs ∉ fs.dirs then none
  else some { fs with files := (abs, data) :: fs.files.filter (fun f => f.1 ≠ abs) }

/-! ## The program -/

/-- The `options` variable. -/
structure Options where
  OutputFile : String
  TemplatesDir : String
  Namespace : String
  Image : String
  ImagePullPolicy : String
  ImageSHA256 : Bool
  OperatorName : String
  RBAC : Bool
deriving DecidableEq

/-- The flag defaults registered in `init`. -/
def defaultOptions : Options where
  OutputFile := "manifests/arango-operator.yaml"
  TemplatesDir := "manifests/templates"
  Namespace := "default"
  Image := "arangodb/arangodb-operator:latest"
  ImagePullPolicy := "IfNotPresent"
  ImageSHA256 := true
  OperatorName := "arango-operator"
  RBAC := true

/-- The `templateNames` variable. -/
def templateNames : List String := ["rbac.yaml", "deployment.yaml"]

/-- The anonymous struct `templateOptions` that is bound to every template. -/
structure TemplateOptions where
  Namespace : String
  OperatorName : String
  OperatorImage : String
  ImagePullPolicy : String
  ClusterRoleName : String
  ClusterRoleBindingName : String
  RBAC : Bool
deriving DecidableEq

/-- The `log.Fatal` calls of `main`, in source order; each ends the process
with exit status 1. -/
inductive Fatal where
  | outputNotSpecified
  | namespaceNotSpecified
  | imageNotSpecified
  | fetchImageSHA256 (output : String)
  | parseTemplate (name : String)
  | absOutputPath
  | createOutputDir
  | writeOutputFile
deriving DecidableEq

/-- The externally visible actions of a run. -/
inductive Event where
  | resolverInvoked (image : String)
  | templateRead (path : String)
  | templateExecuted (name : String) (data : TemplateOptions)
  | mkdirAll (path : String)
  | writeFile (path : String) (data : String)
deriving DecidableEq

/-- The collaborators outside the repository.  `docker image` is
`exec.Command("docker", "inspect", "--format=...", image).CombinedOutput()`:
the combined output and whether `err == nil`.  `parse name path content` is
`template.New(name).ParseFiles(path)` once the file has been read.
`execute t data` is `t.Execute(output, data)`: the bytes written to the
buffer (possibly a partial rendering) and whether `err == nil`. -/
structure Env (T : Type) where
  cwd : String
  getwdOk : Bool
  docker : String → String × Bool
  parse : String → String → String → Option T
  execute : T → TemplateOptions → String × Bool

/-- What a run leaves behind: the file system, the actions performed, and the
fatal error that ended it (`none`: `main` returned, exit status 0). -/
structure Run where
  fs : FS
  events : List Event
  fatal : Option Fatal
deriving DecidableEq

/-- The process exit status. -/
def Run.exitStatus (r : Run) : Nat := if r.fatal.isSome then 1 else 0

/-- The calls of the output writer (`os.MkdirAll`, `ioutil.WriteFile`). -/
def Event.isWriterCall : Event → Bool
  | .mkdirAll _ => true
  | .writeFile _ _ => true
  | _ => false

/-- The calls of the template renderer (reading and executing a template). -/
def Event.isTemplateCall : Event → Bool
  | .templateRead _ => true
  | .templateExecuted _ _ => true
  | _ => false

/-- The fatal errors of the option check. -/
def Fatal.isConfigError : Fatal → Bool
  | .outputNotSpecified => true
  | .namespaceNotSpecified => true
  | .imageNotSpecified => true
  | _ => false

/-- Lines 71-80 of `main`, "Check options". -/
def checkOptions (o : Options) : Option Fatal :=
  if o.OutputFile = "" then some .outputNotSpecified
  else if o.Namespace = "" then some .namespaceNotSpecified
  else if o.Image = "" then some .imageNotSpecified
  else none

/-- Lines 82-96 of `main`, "Fetch image sha256": the events and either the
fatal error or the options with `Image` replaced. -/
def fetchImageSHA256 {T : Type} (env : Env T) (o : Options) : List Event × Except Fatal Options :=
  if o.ImageSHA256 then
    let r := env.docker o.Image
    if r.2 then ([.resolverInvoked o.Image], .ok { o with Image := TrimSpace r.1 })
    else ([.resolverInvoked o.Image], .error (.fetchImageSHA256 r.1))
  else ([], .ok o)

/-- Lines 99-115 of `main`: the record bound to the templates. -/
def templateOptions (o : Options) : TemplateOptions where
  Namespace := o.Namespace
  OperatorName := o.OperatorName
  OperatorImage := o.Image
  ImagePullPolicy := o.ImagePullPolicy
  ClusterRoleName := "arango-operator"
  ClusterRoleBindingName := "arango-operator"
  RBAC := o.RBAC

/-- Line 118: `template.New(name).ParseFiles(filepath.Join(dir, name))`. -/
def loadTemplate {T : Type} (env : Env T) (fs : FS) (dir name : String) : Option T :=
  match ReadFile fs env.cwd (filepath.Join dir name) with
  | none => none
  | some content => env.parse name (filepath.Join dir name) content

/-- Lines 116-128 of `main`: the loop `for i, name := range templateNames`,
from index `i` on, with `output` the buffer so far. -/
def processTemplates {T : Type} (env : Env T) (fs : FS) (dir : String) (data : TemplateOptions) :
    List String → Nat → String → List Event × Except Fatal String
  | [], _, output => ([], .ok output)
  | name :: rest, i, output =>
    match loadTemplate env fs dir name with
    | none => ([.templateRead (filepath.Join dir name)], .error (.parseTemplate name))
    | some t =>
      let output := if i > 0 then output ++ "\n---\n\n" else output
      let output := output ++ ("## " ++ name ++ "\n")
      let output := output ++ (env.execute t data).1
      let output := output ++ "\n"
      let r := processTemplates env fs dir data rest (i + 1) output
      (.templateRead (filepath.Join dir name) :: .templateExecuted name data :: r.1, r.2)

/-- Lines 130-140 of `main`, "Save output". -/
def saveOutput {T : Type} (env : Env T) (fs : FS) (outputFile output : String) : Run :=
  match filepath.Abs env.cwd env.getwdOk outputFile with
  | none => ⟨fs, [], some .absOutputPath⟩
  | some outputPath =>
    match MkdirAll fs env.cwd (filepath.Base outputPath) with
    | none => ⟨fs, [.mkdirAll (filepath.Base outputPath)], some .createOutputDir⟩
    | some fs1 =>
      match WriteFile fs1 env.cwd outputPath output with
      | none =>
        ⟨fs1, [.mkdirAll (filepath.Base outputPath), .writeFile outputPath output],
          some .writeOutputFile⟩
      | some fs2 =>
        ⟨fs2, [.mkdirAll (filepath.Base outputPath), .writeFile outputPath output], none⟩

/-- The function `main`, run with the options `o` on the file system `fs`. -/
def main {T : Type} (env : Env T) (o : Options) (fs : FS) : Run :=
  match checkOptions o with
  | some f => ⟨fs, [], some f⟩
  | none =>
    match fetchImageSHA256 env o with
    | (ev1, .error f) => ⟨fs, ev1, some f⟩
    | (ev1, .ok o1) =>
      match processTemplates env fs o1.TemplatesDir (templateOptions o1) templateNames 0 "" with
      | (ev2, .error f) => ⟨fs, ev1 ++ ev2, some f⟩
      | (ev2, .ok output) =>
        let r := saveOutput env fs o1.OutputFile output
        ⟨r.fs, ev1 ++ ev2 ++ r.events, r.fatal⟩

/-! ## A fragment of `text/template`

Literal text and field actions `{{.Field}}` only; it instantiates `Env` in
the examples.  As in Go, a field that the bound struct does not have is found
when the template is executed, not when it is parsed, and the text before the
failing action has been written to the buffer by then. -/

/-- A parsed template element. -/
inductive Node where
  | text (s : List Char)
  | field (name : List Char)
deriving DecidableEq

/-- Where the template scanner is: in literal text, after one opening brace,
inside an action, or after one closing brace inside an action. -/
inductive Mode where
  | text
  | opening
  | action
  | closing
deriving DecidableEq

/-- The field action read between the delimiters: `.Field`, nothing else. -/
def fieldAction (a : List Char) : Option Node :=
  match a with
  | '.' :: f => if f ≠ [] ∧ f.all Char.isAlphanum then some (.field f) else none
  | _ => none

/-- The template scanner, one character at a time.  `text` is the literal
text read so far and `act` the action read so far, both reversed.  An
unclosed action and an action that is not `.Field` are parse errors. -/
def scanTemplate : List Char → Mode → List Char → List Char → Option (List Node)
  | [], .text, text, _ => some [.text text.reverse]
  | [], .opening, text, _ => some [.text ('\x7b' :: text).reverse]
  | [], .action, _, _ => none
  | [], .closing, _, _ => none
  | c :: cs, .text, text, act =>
    if c = '\x7b' then scanTemplate cs .opening text act
    else scanTemplate cs .text (c :: text) act
  | c :: cs, .opening, text, _ =>
    if c = '\x7b' then (scanTemplate cs .action [] []).map (Node.text text.reverse :: ·)
    else scanTemplate cs .text (c :: '\x7b' :: text) []
  | c :: cs, .action, text, act =>
    if c = '\x7d' then scanTemplate cs .closing text act
    else scanTemplate cs .action text (c :: act)
  | c :: cs, .closing, text, act =>
    if c = '\x7d' then
      match fieldAction act.reverse with
      | some n => (scanTemplate cs .text [] []).map (n :: ·)
      | none => none
    else scanTemplate cs .action text (c :: '\x7d' :: act)

/-- The exported fields of the bound struct, printed as `Execute` prints them. -/
def lookupField (d : TemplateOptions) (f : String) : Option String :=
  if f = "Namespace" then some d.Namespace
  else if f = "OperatorName" then some d.OperatorName
  else if f = "OperatorImage" then some d.OperatorImage
  else if f = "ImagePullPolicy" then some d.ImagePullPolicy
  else if f = "ClusterRoleName" then some d.ClusterRoleName
  else if f = "ClusterRoleBindingName" then some d.ClusterRoleBindingName
  else if f = "RBAC" then some (if d.RBAC then "true" else "false")
  else none

/-- Execution writes element by element and stops at the first error. -/
def execNodes (d : TemplateOptions) : List Node → String → String × Bool
  | [], out => (out, true)
  | .text s :: ns, out => execNodes d ns (out ++ ⟨s⟩)
  | .field f :: ns, out =>
    match lookupField d ⟨f⟩ with
    | some v => execNodes d ns (out ++ v)
    | none => (out, false)

/-- `template.New(name).ParseFiles(path)`: the file defines the template named
`filepath.Base path`; when that is not `name`, the template `name` stays
empty (`none`) and executing it is an error that writes nothing. -/
def miniParse (name path content : String) : Option (Option (List Node)) :=
  (scanTemplate content.data .text [] []).map
    (fun nodes => if filepath.Base path = name then some nodes else none)

/-- `Execute` of the fragment. -/
def miniExecute (t : Option (List Node)) (d : TemplateOptions) : String × Bool :=
  match t with
  | none => ("", false)
  | some nodes => execNodes d nodes ""

/-- An environment with working directory `cwd`, a resolver that answers
`resolver`, and the template fragment above. -/
def miniEnv (cwd : String) (resolver : String → String × Bool) : Env (Option (List Node)) where
  cwd := cwd
  getwdOk := true
  docker := resolver
  parse := miniParse
  execute := miniExecute

/-! ## Composition as the specification words it -/

/-- One fragment of the composed document: the document separator (for every
fragment after the first), the header line naming the template, the body
verbatim, and a trailing newline. -/
def fragmentText (first : Bool) (name body : String) : String :=
  (if first then "" else "\n---\n\n") ++ ("## " ++ name ++ "\n") ++ body ++ "\n"

/-- The composed document of an ordered list of (template name, rendered
body) pairs; `first` tells whether the head of the list is the first fragment. -/
def composeSpec : Bool → List (String × String) → String
  | _, [] => ""
  | first, p :: rest => fragmentText first p.1 p.2 ++ composeSpec false rest

/-- The pairs are what the loop renders: every name loads, and executing the
loaded template writes the paired body. -/
def Renders {T : Type} (env : Env T) (fs : FS) (dir : String) (data : TemplateOptions)
    (pairs : List (String × String)) : Prop :=
  ∀ p ∈ pairs, ∃ t, loadTemplate env fs dir p.1 = some t ∧ (env.execute t data).1 = p.2

/-! ## Lines of the composed document -/

/-- The lines of a text: the pieces between newline characters. -/
def lines (s : String) : List (List Char) := splitChar '\n' s.data

/-- A document separator line: a line equal to `---`. -/
def isSeparatorLine (l : List Char) : Bool := l = ['-', '-', '-']

/-- A section header line: a line starting with `## `. -/
def isHeaderLine (l : List Char) : Bool := ['#', '#', ' '].isPrefixOf l

/-- The number of document separator lines of a text. -/
def separatorLines (s : String) : Nat := (lines s).countP isSeparatorLine

/-- The section header lines of a text, top to bottom. -/
def headerLines (s : String) : List String := ((lines s).filter isHeaderLine).map String.mk

/-- The header line the loop writes for a template name. -/
def headerOf (name : String) : String := "## " ++ name

/-- The lines of one fragment without its closing newline. -/
def fragmentLines (first : Bool) (name body : String) : List (List Char) :=
  (if first then [] else [[], ['-', '-', '-'], []]) ++ (headerOf name).data :: lines body

/-- The lines of the composed document, fragment by fragment. -/
def composeLines : Bool → List (String × String) → List (List Char)
  | _, [] => [[]]
  | first, p :: rest => fragmentLines first p.1 p.2 ++ composeLines false rest

/-! ## Example inputs -/

/-- A checkout with the two template files under `manifests/templates`. -/
def exampleFS : FS where
  dirs := ["/", "/repo", "/repo/manifests", "/repo/manifests/templates"]
  files :=
    [("/repo/manifests/templates/rbac.yaml", "namespace: \x7b\x7b.Namespace\x7d\x7d"),
     ("/repo/manifests/templates/deployment.yaml", "image: \x7b\x7b.OperatorImage\x7d\x7d")]

/-- The example environment: run from `/repo`, the resolver answers with a digest. -/
def exampleEnv : Env (Option (List Node)) :=
  miniEnv "/repo" (fun _ => ("arangodb/arangodb-operator@sha256:abc\n", true))

/-- The default options with digest pinning switched off. -/
def unpinnedOptions : Options := { defaultOptions with ImageSHA256 := false }

/-- The fragments that the example templates render to under `unpinnedOptions`. -/
def examplePairs : List (String × String) :=
  [("rbac.yaml", "namespace: default"),
   ("deployment.yaml", "image: arangodb/arangodb-operator:latest")]

/-- A checkout whose `rbac.yaml` holds two YAML documents. -/
def multiDocFS : FS where
  dirs := ["/", "/repo", "/repo/manifests", "/repo/manifests/templates"]
  files :=
    [("/repo/manifests/templates/rbac.yaml", "kind: ServiceAccount\n---\nkind: ClusterRole"),
     ("/repo/manifests/templates/deployment.yaml", "kind: Deployment")]

/-- A checkout whose `rbac.yaml` holds a comment line that starts with `## `. -/
def commentFS : FS where
  dirs := ["/", "/repo", "/repo/manifests", "/repo/manifests/templates"]
  files :=
    [("/repo/manifests/templates/rbac.yaml", "## Cluster role\nkind: ClusterRole"),
     ("/repo/manifests/templates/deployment.yaml", "kind: Deployment")]

/-- A checkout where `deployment.yaml` is missing from the templates directory. -/
def missingFS : FS where
  dirs := ["/", "/repo", "/repo/manifests", "/repo/manifests/templates"]
  files := [("/repo/manifests/templates/rbac.yaml", "namespace: \x7b\x7b.Namespace\x7d\x7d")]

/-- A checkout whose `rbac.yaml` refers to a field that the bound record does
not have. -/
def brokenFS : FS where
  dirs := ["/", "/repo", "/repo/manifests", "/repo/manifests/templates"]
  files :=
    [("/repo/manifests/templates/rbac.yaml",
        "name: \x7b\x7b.ServiceAccountName\x7d\x7d\nkind: ClusterRole"),
     ("/repo/manifests/templates/deployment.yaml", "image: \x7b\x7b.OperatorImage\x7d\x7d")]

/-- An environment whose resolver exits with status zero and prints only white space. -/
def blankResolverEnv : Env (Option (List Node)) :=
  miniEnv "/repo" (fun _ => (" \n", true))

/-- An environment whose resolver exits with a non-zero status. -/
def failingResolverEnv : Env (Option (List Node)) :=
  miniEnv "/repo" (fun _ => ("Error: No such object\n", false))

/-! ## Lemmas -/

/-! ## The composition loop -/

theorem processTemplates_ok {T : Type} (env : Env T) (fs : FS) (dir : String)
    (data : TemplateOptions) :
    ∀ (pairs : List (String × String)) (i : Nat) (output : String),
      Renders env fs dir data pairs →
      (processTemplates env fs dir data (pairs.map Prod.fst) i output).2
        = .ok (output ++ composeSpec (decide (i = 0)) pairs) := by
  intro pairs
  induction pairs with
  | nil => intro i output _; simp [processTemplates, composeSpec]
  | cons p rest ih =>
    intro i output h
    obtain ⟨t, ht, hb⟩ := h p (List.mem_cons_self _ _)
    have hrest : Renders env fs dir data rest := fun q hq => h q (List.mem_cons_of_mem _ hq)
    simp only [List.map_cons, processTemplates, ht]
    rw [ih (i + 1) _ hrest, hb]
    congr 1
    by_cases hi : i = 0
    · subst hi
      simp [composeSpec, fragmentText, String.append_assoc]
    · have hpos : i > 0 := Nat.pos_of_ne_zero hi
      simp [composeSpec, fragmentText, String.append_assoc, hi, hpos]

theorem splitChar_ne_nil (sep : Char) (cs : List Char) : splitChar sep cs ≠ [] := by
  induction cs with
  | nil => simp [splitChar]
  | cons c cs ih =>
    unfold splitChar
    split
    · simp
    · split <;> simp

theorem splitChar_append_sep (sep : Char) (a b : List Char) :
    splitChar sep (a ++ sep :: b) = splitChar sep a ++ splitChar sep b := by
  induction a with
  | nil => simp [splitChar]
  | cons c cs ih =>
    by_cases hc : c = sep
    · simp [splitChar, hc, ih]
    · simp only [List.cons_append, splitChar, hc, if_false]
      have ih1 : splitChar sep (cs.append (sep :: b)) = splitChar sep cs ++ splitChar sep b := ih
      rw [ih1]
      cases hs : splitChar sep cs with
      | nil => exact absurd hs (splitChar_ne_nil sep cs)
      | cons l ls => simp

theorem splitChar_of_not_mem (sep : Char) (a : List Char) (h : sep ∉ a) :
    splitChar sep a = [a] := by
  induction a with
  | nil => simp [splitChar]
  | cons c cs ih =>
    have hc : c ≠ sep := fun e => h (by simp [e])
    have hcs : sep ∉ cs := fun e => h (List.mem_cons_of_mem _ e)
    simp [splitChar, hc, ih hcs]

theorem fragmentText_data (first : Bool) (name body : String) :
    (fragmentText first name body).data
      = ((if first then [] else ['\n', '-', '-', '-', '\n', '\n'])
          ++ ((headerOf name).data ++ '\n' :: body.data)) ++ ['\n'] := by
  cases first <;> simp [fragmentText, headerOf, String.data_append]

theorem lines_fragment_append (first : Bool) (name body rest : String)
    (hname : '\n' ∉ name.data) :
    lines (fragmentText first name body ++ rest) = fragmentLines first name body ++ lines rest := by
  have hh : '\n' ∉ (headerOf name).data := by
    simp [headerOf, String.data_append, hname]
  unfold lines
  rw [String.data_append, fragmentText_data, List.append_assoc, List.singleton_append,
    splitChar_append_sep]
  congr 1
  cases first
  · simp only [Bool.false_eq_true, if_false, fragmentLines, lines]
    rw [show [('\n' : Char), '-', '-', '-', '\n', '\n'] ++ ((headerOf name).data ++ '\n' :: body.data)
          = [] ++ '\n' :: (['-', '-', '-'] ++ '\n' :: ([] ++ '\n' ::
              ((headerOf name).data ++ '\n' :: body.data))) from rfl]
    rw [splitChar_append_sep, splitChar_append_sep, splitChar_append_sep, splitChar_append_sep,
      splitChar_of_not_mem _ _ hh]
    simp [splitChar]
  · simp only [if_true, fragmentLines, lines, List.nil_append]
    rw [splitChar_append_sep, splitChar_of_not_mem _ _ hh]
    simp

theorem lines_composeSpec (pairs : List (String × String)) :
    ∀ (first : Bool), (∀ p ∈ pairs, '\n' ∉ p.1.data) →
      lines (composeSpec first pairs) = composeLines first pairs := by
  induction pairs with
  | nil => intro first _; simp [composeSpec, composeLines, lines, splitChar]
  | cons p rest ih =>
    intro first h
    simp only [composeSpec, composeLines]
    rw [lines_fragment_append _ _ _ _ (h p (List.mem_cons_self _ _)),
      ih false (fun q hq => h q (List.mem_cons_of_mem _ hq))]

theorem isHeaderLine_headerOf (name : String) : isHeaderLine (headerOf name).data = true := by
  simp [isHeaderLine, headerOf, String.data_append, List.isPrefixOf]

theorem isSeparatorLine_headerOf (name : String) : isSeparatorLine (headerOf name).data = false := by
  simp [isSeparatorLine, headerOf, String.data_append]

theorem countP_separator_composeLines (pairs : List (String × String)) :
    ∀ (first : Bool), (∀ p ∈ pairs, ∀ l ∈ lines p.2, isSeparatorLine l = false) →
      (composeLines first pairs).countP isSeparatorLine
        = if first then pairs.length - 1 else pairs.length := by
  induction pairs with
  | nil => intro first _; cases first <;> simp [composeLines, isSeparatorLine]
  | cons p rest ih =>
    intro first h
    have hb : (lines p.2).countP isSeparatorLine = 0 := by
      rw [List.countP_eq_zero]
      intro l hl
      simp [h p (List.mem_cons_self _ _) l hl]
    have hr := ih false (fun q hq => h q (List.mem_cons_of_mem _ hq))
    simp only [Bool.false_eq_true, if_false] at hr
    cases first
    · have h1 : isSeparatorLine [] = false := by decide
      have h2 : isSeparatorLine ['-', '-', '-'] = true := by decide
      simp [composeLines, fragmentLines, List.countP_cons, hb, hr, isSeparatorLine_headerOf,
        h1, h2]
    · simp [composeLines, fragmentLines, List.countP_cons, hb, hr, isSeparatorLine_headerOf]

theorem filter_header_composeLines (pairs : List (String × String)) :
    ∀ (first : Bool), (∀ p ∈ pairs, ∀ l ∈ lines p.2, isHeaderLine l = false) →
      (composeLines first pairs).filter isHeaderLine
        = pairs.map fun p => (headerOf p.1).data := by
  induction pairs with
  | nil => intro first _; simp [composeLines, isHeaderLine, List.isPrefixOf]
  | cons p rest ih =>
    intro first h
    have hb : (lines p.2).filter isHeaderLine = [] := by
      rw [List.filter_eq_nil_iff]
      intro l hl
      simp [h p (List.mem_cons_self _ _) l hl]
    have hr := ih false (fun q hq => h q (List.mem_cons_of_mem _ hq))
    cases first
    · have h1 : isHeaderLine [] = false := by decide
      have h2 : isHeaderLine ['-', '-', '-'] = false := by decide
      simp [composeLines, fragmentLines, List.filter_cons, hb, hr, isHeaderLine_headerOf, h1, h2]
    · simp [composeLines, fragmentLines, List.filter_cons, hb, hr, isHeaderLine_headerOf]

/-! ## The stages of `main` -/

theorem checkOptions_eq_none (o : Options) :
    checkOptions o = none ↔ o.OutputFile ≠ "" ∧ o.Namespace ≠ "" ∧ o.Image ≠ "" := by
  unfold checkOptions
  by_cases h1 : o.OutputFile = "" <;> by_cases h2 : o.Namespace = "" <;>
    by_cases h3 : o.Image = "" <;> simp [h1, h2, h3]

theorem checkOptions_isConfigError (o : Options) (f : Fatal) (h : checkOptions o = some f) :
    f.isConfigError = true := by
  unfold checkOptions at h
  split at h
  · cases h; rfl
  · split at h
    · cases h; rfl
    · split at h
      · cases h; rfl
      · cases h

theorem fetchImageSHA256_error {T : Type} (env : Env T) (o : Options) (ev : List Event)
    (f : Fatal) (h : fetchImageSHA256 env o = (ev, .error f)) :
    o.ImageSHA256 = true ∧ (env.docker o.Image).2 = false ∧
      ev = [.resolverInvoked o.Image] ∧ f = .fetchImageSHA256 (env.docker o.Image).1 := by
  unfold fetchImageSHA256 at h
  dsimp only at h
  by_cases hp : o.ImageSHA256 = true
  · rw [if_pos hp] at h
    by_cases hd : (env.docker o.Image).2 = true
    · rw [if_pos hd] at h
      simp at h
    · rw [if_neg hd] at h
      simp only [Prod.mk.injEq, Except.error.injEq] at h
      simp only [Bool.not_eq_true] at hd
      exact ⟨hp, hd, h.1.symm, h.2.symm⟩
  · rw [if_neg hp] at h
    simp at h

theorem fetchImageSHA256_ok {T : Type} (env : Env T) (o : Options) (ev : List Event)
    (o1 : Options) (h : fetchImageSHA256 env o = (ev, .ok o1)) :
    (o.ImageSHA256 = false ∧ ev = [] ∧ o1 = o) ∨
    (o.ImageSHA256 = true ∧ (env.docker o.Image).2 = true ∧ ev = [.resolverInvoked o.Image] ∧
      o1 = { o with Image := TrimSpace (env.docker o.Image).1 }) := by
  unfold fetchImageSHA256 at h
  dsimp only at h
  by_cases hp : o.ImageSHA256 = true
  · rw [if_pos hp] at h
    by_cases hd : (env.docker o.Image).2 = true
    · rw [if_pos hd] at h
      simp only [Prod.mk.injEq, Except.ok.injEq] at h
      exact Or.inr ⟨hp, hd, h.1.symm, h.2.symm⟩
    · rw [if_neg hd] at h
      simp at h
  · rw [if_neg hp] at h
    simp only [Prod.mk.injEq, Except.ok.injEq] at h
    simp only [Bool.not_eq_true] at hp
    exact Or.inl ⟨hp, h.1.symm, h.2.symm⟩

theorem processTemplates_events {T : Type} (env : Env T) (fs : FS) (dir : String)
    (data : TemplateOptions) :
    ∀ (names : List String) (i : Nat) (output : String),
      ∀ e ∈ (processTemplates env fs dir data names i output).1,
        (∃ name ∈ names, e = .templateRead (filepath.Join dir name)) ∨
        (∃ name ∈ names, e = .templateExecuted name data) := by
  intro names
  induction names with
  | nil => intro i output e he; simp [processTemplates] at he
  | cons name rest ih =>
    intro i output e he
    unfold processTemplates at he
    split at he
    · simp only [List.mem_singleton] at he
      exact Or.inl ⟨name, List.mem_cons_self _ _, he⟩
    · simp only [List.mem_cons] at he
      rcases he with he | he | he
      · exact Or.inl ⟨name, List.mem_cons_self _ _, he⟩
      · exact Or.inr ⟨name, List.mem_cons_self _ _, he⟩
      · rcases ih _ _ e he with ⟨n, hn, h⟩ | ⟨n, hn, h⟩
        · exact Or.inl ⟨n, List.mem_cons_of_mem _ hn, h⟩
        · exact Or.inr ⟨n, List.mem_cons_of_mem _ hn, h⟩

theorem processTemplates_error {T : Type} (env : Env T) (fs : FS) (dir : String)
    (data : TemplateOptions) :
    ∀ (names : List String) (i : Nat) (output : String) (f : Fatal),
      (processTemplates env fs dir data names i output).2 = .error f →
        ∃ name ∈ names, f = .parseTemplate name ∧ loadTemplate env fs dir name = none := by
  intro names
  induction names with
  | nil => intro i output f h; simp [processTemplates] at h
  | cons name rest ih =>
    intro i output f h
    unfold processTemplates at h
    split at h
    · next hl =>
      simp only [Except.error.injEq] at h
      exact ⟨name, List.mem_cons_self _ _, h.symm, hl⟩
    · obtain ⟨n, hn, h1, h2⟩ := ih _ _ f h
      exact ⟨n, List.mem_cons_of_mem _ hn, h1, h2⟩

theorem processTemplates_error_of_missing {T : Type} (env : Env T) (fs : FS) (dir : String)
    (data : TemplateOptions) :
    ∀ (names : List String) (i : Nat) (output : String),
      (∃ name ∈ names, loadTemplate env fs dir name = none) →
        ∃ f, (processTemplates env fs dir data names i output).2 = .error f := by
  intro names
  induction names with
  | nil => intro i output h; simp at h
  | cons name rest ih =>
    intro i output h
    unfold processTemplates
    cases hl : loadTemplate env fs dir name with
    | none => exact ⟨_, rfl⟩
    | some t =>
      obtain ⟨n, hn, hnone⟩ := h
      rcases List.mem_cons.mp hn with rfl | hn
      · rw [hl] at hnone; cases hnone
      · exact ih _ _ ⟨n, hn, hnone⟩

theorem saveOutput_fatal {T : Type} (env : Env T) (fs : FS) (outputFile output : String) :
    ∀ f, (saveOutput env fs outputFile output).fatal = some f →
      f = .absOutputPath ∨ f = .createOutputDir ∨ f = .writeOutputFile := by
  intro f h
  unfold saveOutput at h
  split at h
  · cases h; exact Or.inl rfl
  · split at h
    · cases h; exact Or.inr (Or.inl rfl)
    · split at h
      · cases h; exact Or.inr (Or.inr rfl)
      · cases h

theorem saveOutput_events {T : Type} (env : Env T) (fs : FS) (outputFile output : String) :
    ∀ e ∈ (saveOutput env fs outputFile output).events, e.isWriterCall = true := by
  intro e he
  unfold saveOutput at he
  split at he
  · simp at he
  · split at he
    · simp at he; subst he; rfl
    · split at he <;>
      · simp at he
        rcases he with rfl | rfl <;> rfl

/-- The four ways `main` can run, by the stage that ends it. -/
theorem main_cases {T : Type} (env : Env T) (o : Options) (fs : FS) :
    (∃ f, checkOptions o = some f ∧ main env o fs = ⟨fs, [], some f⟩) ∨
    (checkOptions o = none ∧ ∃ ev f, fetchImageSHA256 env o = (ev, .error f) ∧
      main env o fs = ⟨fs, ev, some f⟩) ∨
    (checkOptions o = none ∧ ∃ ev1 o1 ev2 f, fetchImageSHA256 env o = (ev1, .ok o1) ∧
      processTemplates env fs o1.TemplatesDir (templateOptions o1) templateNames 0 ""
        = (ev2, .error f) ∧
      main env o fs = ⟨fs, ev1 ++ ev2, some f⟩) ∨
    (checkOptions o = none ∧ ∃ ev1 o1 ev2 output, fetchImageSHA256 env o = (ev1, .ok o1) ∧
      processTemplates env fs o1.TemplatesDir (templateOptions o1) templateNames 0 ""
        = (ev2, .ok output) ∧
      main env o fs = ⟨(saveOutput env fs o1.OutputFile output).fs,
        ev1 ++ ev2 ++ (saveOutput env fs o1.OutputFile output).events,
        (saveOutput env fs o1.OutputFile output).fatal⟩) := by
  cases hc : checkOptions o with
  | some f => exact Or.inl ⟨f, rfl, by simp [main, hc]⟩
  | none =>
    right
    rcases hf : fetchImageSHA256 env o with ⟨ev1, r1⟩
    cases r1 with
    | error f => exact Or.inl ⟨rfl, ev1, f, rfl, by simp [main, hc, hf]⟩
    | ok o1 =>
      right
      rcases hp : processTemplates env fs o1.TemplatesDir (templateOptions o1) templateNames 0 ""
        with ⟨ev2, r2⟩
      cases r2 with
      | error f => exact Or.inl ⟨rfl, ev1, o1, ev2, f, rfl, hp, by simp [main, hc, hf, hp]⟩
      | ok output => exact Or.inr ⟨rfl, ev1, o1, ev2, output, rfl, hp, by simp [main, hc, hf, hp]⟩

theorem fetchImageSHA256_events {T : Type} (env : Env T) (o : Options) :
    ∀ e ∈ (fetchImageSHA256 env o).1, e = .resolverInvoked o.Image ∧ o.ImageSHA256 = true := by
  intro e he
  unfold fetchImageSHA256 at he
  dsimp only at he
  by_cases hp : o.ImageSHA256 = true
  · rw [if_pos hp] at he
    by_cases hd : (env.docker o.Image).2 = true
    · rw [if_pos hd] at he
      exact ⟨List.mem_singleton.mp he, hp⟩
    · rw [if_neg hd] at he
      exact ⟨List.mem_singleton.mp he, hp⟩
  · rw [if_neg hp] at he
    simp at he

theorem fetchImageSHA256_fields {T : Type} (env : Env T) (o : Options) (ev : List Event)
    (o1 : Options) (h : fetchImageSHA256 env o = (ev, .ok o1)) :
    o1.OutputFile = o.OutputFile ∧ o1.TemplatesDir = o.TemplatesDir ∧
      o1.Namespace = o.Namespace ∧ o1.ImagePullPolicy = o.ImagePullPolicy ∧
      o1.OperatorName = o.OperatorName ∧ o1.RBAC = o.RBAC := by
  rcases fetchImageSHA256_ok env o ev o1 h with ⟨_, _, rfl⟩ | ⟨_, _, _, rfl⟩ <;> simp

/-- Every action of a run is the resolver call, a template call with the
record built from the options after resolution, or a writer call. -/
theorem main_events {T : Type} (env : Env T) (o : Options) (fs : FS) :
    ∀ e ∈ (main env o fs).events,
      (e = .resolverInvoked o.Image ∧ o.ImageSHA256 = true) ∨
      (∃ ev1 o1, fetchImageSHA256 env o = (ev1, .ok o1) ∧
        ((∃ name ∈ templateNames, e = .templateRead (filepath.Join o1.TemplatesDir name)) ∨
         (∃ name ∈ templateNames, e = .templateExecuted name (templateOptions o1)))) ∨
      e.isWriterCall = true := by
  intro e he
  rcases main_cases env o fs with ⟨f, _, hm⟩ | ⟨_, ev, f, hf, hm⟩ |
    ⟨_, ev1, o1, ev2, f, hf, hp, hm⟩ | ⟨_, ev1, o1, ev2, output, hf, hp, hm⟩
  · rw [hm] at he; simp at he
  · rw [hm] at he
    have := fetchImageSHA256_events env o e (by rw [hf]; exact he)
    exact Or.inl this
  · rw [hm] at he
    rcases List.mem_append.mp he with h1 | h2
    · exact Or.inl (fetchImageSHA256_events env o e (by rw [hf]; exact h1))
    · have := processTemplates_events env fs o1.TemplatesDir (templateOptions o1)
        templateNames 0 "" e (by rw [hp]; exact h2)
      exact Or.inr (Or.inl ⟨ev1, o1, hf, this⟩)
  · rw [hm] at he
    rcases List.mem_append.mp he with h12 | h3
    · rcases List.mem_append.mp h12 with h1 | h2
      · exact Or.inl (fetchImageSHA256_events env o e (by rw [hf]; exact h1))
      · have := processTemplates_events env fs o1.TemplatesDir (templateOptions o1)
          templateNames 0 "" e (by rw [hp]; exact h2)
        exact Or.inr (Or.inl ⟨ev1, o1, hf, this⟩)
    · exact Or.inr (Or.inr (saveOutput_events env fs _ _ e h3))

/-- The record passed to every `Execute` call is built from the options after
resolution. -/
theorem main_executed_data {T : Type} (env : Env T) (o : Options) (fs : FS) (n : String)
    (d : TemplateOptions) (h : Event.templateExecuted n d ∈ (main env o fs).events) :
    ∃ ev1 o1, fetchImageSHA256 env o = (ev1, .ok o1) ∧ d = templateOptions o1 := by
  rcases main_events env o fs _ h with ⟨h1, _⟩ | ⟨ev1, o1, hf, hr⟩ | h3
  · cases h1
  · rcases hr with ⟨name, _, h1⟩ | ⟨name, _, h1⟩
    · cases h1
    · cases h1
      exact ⟨ev1, o1, hf, rfl⟩
  · cases h3

/-! ## Document Composer -/

/-- C1: for every ordered list of (template name, rendered body) pairs, the
buffer built by the loop of `main` is the concatenation, in list order, of
the separator `"\n---\n\n"` (only after the first fragment), `"## " ++ name
++ "\n"`, the body verbatim and `"\n"`, and nothing else. -/
theorem processTemplates_eq_composeSpec {T : Type} (env : Env T) (fs : FS) (dir : String)
    (data : TemplateOptions) (pairs : List (String × String))
    (h : Renders env fs dir data pairs) :
    (processTemplates env fs dir data (pairs.map Prod.fst) 0 "").2
      = .ok (composeSpec true pairs) := by
  have := processTemplates_ok env fs dir data pairs 0 "" h
  simpa using this

theorem processTemplates_eq_composeSpec_witness :
    (processTemplates exampleEnv exampleFS "manifests/templates"
        (templateOptions unpinnedOptions) templateNames 0 "").2
      = .ok ("## rbac.yaml\nnamespace: default\n\n---\n\n## deployment.yaml\n" ++
          "image: arangodb/arangodb-operator:latest\n") :=
  processTemplates_eq_composeSpec exampleEnv exampleFS "manifests/templates"
    (templateOptions unpinnedOptions) examplePairs
    (by
      intro p hp
      simp only [examplePairs, List.mem_cons, List.mem_singleton, List.not_mem_nil,
        or_false] at hp
      rcases hp with rfl | rfl
      · exact ⟨_, rfl, by decide⟩
      · exact ⟨_, rfl, by decide⟩)

/-- C2, as stated, fails: with the two templates of the program and an
`rbac.yaml` that holds two YAML documents, the composed output has two lines
equal to `---`, not one. -/
theorem separatorLines_counterexample :
    ∃ out,
      (processTemplates exampleEnv multiDocFS "manifests/templates"
        (templateOptions unpinnedOptions) templateNames 0 "").2 = .ok out ∧
      templateNames.length = 2 ∧ separatorLines out = 2 ∧
      separatorLines out ≠ templateNames.length - 1 :=
  ⟨"## rbac.yaml\nkind: ServiceAccount\n---\nkind: ClusterRole\n\n---\n\n## deployment.yaml\n" ++
      "kind: Deployment\n", by rfl, by rfl, by decide, by decide⟩

/-- C2, amended: when no template name contains a newline and no rendered
body has a line equal to `---` or a line starting with `## `, the composed
output of N fragments has exactly N-1 separator lines and exactly N section
header lines. -/
theorem separatorLines_headerLines_count {T : Type} (env : Env T) (fs : FS) (dir : String)
    (data : TemplateOptions) (pairs : List (String × String))
    (h : Renders env fs dir data pairs)
    (hname : ∀ p ∈ pairs, '\n' ∉ p.1.data)
    (hbody : ∀ p ∈ pairs, ∀ l ∈ lines p.2, isSeparatorLine l = false ∧ isHeaderLine l = false) :
    ∃ out,
      (processTemplates env fs dir data (pairs.map Prod.fst) 0 "").2 = .ok out ∧
      separatorLines out = pairs.length - 1 ∧ (headerLines out).length = pairs.length := by
  refine ⟨composeSpec true pairs, ?_, ?_, ?_⟩
  · simpa using processTemplates_ok env fs dir data pairs 0 "" h
  · unfold separatorLines
    rw [lines_composeSpec pairs true hname,
      countP_separator_composeLines pairs true (fun p hp l hl => (hbody p hp l hl).1)]
    simp
  · unfold headerLines
    rw [lines_composeSpec pairs true hname,
      filter_header_composeLines pairs true (fun p hp l hl => (hbody p hp l hl).2)]
    simp

theorem separatorLines_headerLines_count_witness :
    ∃ out,
      (processTemplates exampleEnv exampleFS "manifests/templates"
        (templateOptions unpinnedOptions) templateNames 0 "").2 = .ok out ∧
      separatorLines out = 1 ∧ (headerLines out).length = 2 :=
  separatorLines_headerLines_count exampleEnv exampleFS "manifests/templates"
    (templateOptions unpinnedOptions) examplePairs
    (by
      intro p hp
      simp only [examplePairs, List.mem_cons, List.mem_singleton, List.not_mem_nil,
        or_false] at hp
      rcases hp with rfl | rfl
      · exact ⟨_, rfl, by decide⟩
      · exact ⟨_, rfl, by decide⟩)
    (by decide) (by decide)

/-- C3, as stated, fails: with an `rbac.yaml` whose body has a comment line
starting with `## `, the header lines of the output are not the template
names in order. -/
theorem headerLines_counterexample :
    ∃ out,
      (processTemplates exampleEnv commentFS "manifests/templates"
        (templateOptions unpinnedOptions) templateNames 0 "").2 = .ok out ∧
      headerLines out = ["## rbac.yaml", "## Cluster role", "## deployment.yaml"] ∧
      headerLines out ≠ templateNames.map headerOf :=
  ⟨"## rbac.yaml\n## Cluster role\nkind: ClusterRole\n\n---\n\n## deployment.yaml\n" ++
      "kind: Deployment\n", by rfl, by decide, by decide⟩

/-- C3, amended: when no template name contains a newline and no rendered
body has a line starting with `## `, the section header lines of the composed
output, top to bottom, are exactly `## <name>` for the template names in the
order of the template set. -/
theorem headerLines_eq_names {T : Type} (env : Env T) (fs : FS) (dir : String)
    (data : TemplateOptions) (pairs : List (String × String))
    (h : Renders env fs dir data pairs)
    (hname : ∀ p ∈ pairs, '\n' ∉ p.1.data)
    (hbody : ∀ p ∈ pairs, ∀ l ∈ lines p.2, isHeaderLine l = false) :
    ∃ out,
      (processTemplates env fs dir data (pairs.map Prod.fst) 0 "").2 = .ok out ∧
      headerLines out = (pairs.map Prod.fst).map headerOf := by
  refine ⟨composeSpec true pairs, ?_, ?_⟩
  · simpa using processTemplates_ok env fs dir data pairs 0 "" h
  · unfold headerLines
    rw [lines_composeSpec pairs true hname, filter_header_composeLines pairs true hbody]
    simp

theorem headerLines_eq_names_witness :
    ∃ out,
      (processTemplates exampleEnv multiDocFS "manifests/templates"
        (templateOptions unpinnedOptions) templateNames 0 "").2 = .ok out ∧
      headerLines out = ["## rbac.yaml", "## deployment.yaml"] :=
  headerLines_eq_names exampleEnv multiDocFS "manifests/templates"
    (templateOptions unpinnedOptions)
    [("rbac.yaml", "kind: ServiceAccount\n---\nkind: ClusterRole"),
     ("deployment.yaml", "kind: Deployment")]
    (by
      intro p hp
      simp only [List.mem_cons, List.mem_singleton, List.not_mem_nil, or_false] at hp
      rcases hp with rfl | rfl
      · exact ⟨_, rfl, by decide⟩
      · exact ⟨_, rfl, by decide⟩)
    (by decide) (by decide)

/-! ## Template Renderer -/

/-- C5: if the file of any template of the template set is absent from the
templates directory, the run ends with a fatal (non-zero) status before the
writer runs: the file system is left as it was (the output file is neither
created nor modified, no directory is created) and neither `os.MkdirAll` nor
`ioutil.WriteFile` is called. -/
theorem main_missing_template {T : Type} (env : Env T) (o : Options) (fs : FS)
    (h : ∃ name ∈ templateNames,
      ReadFile fs env.cwd (filepath.Join o.TemplatesDir name) = none) :
    (main env o fs).exitStatus = 1 ∧ (main env o fs).fs = fs ∧
      ∀ e ∈ (main env o fs).events, e.isWriterCall = false := by
  rcases main_cases env o fs with ⟨f, _, hm⟩ | ⟨_, ev, f, hf, hm⟩ |
    ⟨_, ev1, o1, ev2, f, hf, hp, hm⟩ | ⟨_, ev1, o1, ev2, output, hf, hp, hm⟩
  · rw [hm]; simp [Run.exitStatus]
  · rw [hm]
    refine ⟨by simp [Run.exitStatus], rfl, ?_⟩
    intro e he
    rw [(fetchImageSHA256_events env o e (by rw [hf]; exact he)).1]; rfl
  · rw [hm]
    refine ⟨by simp [Run.exitStatus], rfl, ?_⟩
    intro e he
    rcases List.mem_append.mp he with h1 | h2
    · rw [(fetchImageSHA256_events env o e (by rw [hf]; exact h1)).1]; rfl
    · rcases processTemplates_events env fs o1.TemplatesDir (templateOptions o1)
        templateNames 0 "" e (by rw [hp]; exact h2) with ⟨n, _, rfl⟩ | ⟨n, _, rfl⟩ <;> rfl
  · exfalso
    obtain ⟨name, hn, hr⟩ := h
    have hdir := (fetchImageSHA256_fields env o ev1 o1 hf).2.1
    have hl : loadTemplate env fs o1.TemplatesDir name = none := by
      unfold loadTemplate; rw [hdir, hr]
    obtain ⟨f, hf2⟩ := processTemplates_error_of_missing env fs o1.TemplatesDir
      (templateOptions o1) templateNames 0 "" ⟨name, hn, hl⟩
    rw [hp] at hf2
    cases hf2

theorem main_missing_template_witness :
    (main exampleEnv unpinnedOptions missingFS).fatal = some (.parseTemplate "deployment.yaml") ∧
    (main exampleEnv unpinnedOptions missingFS).exitStatus = 1 ∧
    (main exampleEnv unpinnedOptions missingFS).fs = missingFS ∧
    ∀ e ∈ (main exampleEnv unpinnedOptions missingFS).events, e.isWriterCall = false :=
  ⟨by decide, main_missing_template exampleEnv unpinnedOptions missingFS
    ⟨"deployment.yaml", by decide, by decide⟩⟩

/-- C4, the code at the failing input: executing `rbac.yaml` fails at the
unknown field after writing `name: `; `main` drops the error of `Execute`,
goes on to the next template and writes a manifest that holds the partial
fragment, ending with exit status 0. -/
theorem main_execute_error_ignored :
    (loadTemplate exampleEnv brokenFS "manifests/templates" "rbac.yaml").map
        (fun t => exampleEnv.execute t (templateOptions unpinnedOptions))
      = some ("name: ", false) ∧
    (main exampleEnv unpinnedOptions brokenFS).fatal = none ∧
    (main exampleEnv unpinnedOptions brokenFS).exitStatus = 0 ∧
    (main exampleEnv unpinnedOptions brokenFS).fs.files.lookup
        "/repo/manifests/arango-operator.yaml"
      = some ("## rbac.yaml\nname: \n\n---\n\n## deployment.yaml\n" ++
          "image: arangodb/arangodb-operator:latest\n") := by
  refine ⟨by decide, by decide, by decide, by decide⟩

/-! ## Image Reference Resolver -/

/-- C6: with digest pinning off, the resolver is not invoked and every
template is executed with `OperatorImage` equal to the configured image
string unchanged; with pinning on and the resolver succeeding with output
`s`, the image of the options becomes `s` with surrounding white space
trimmed, and every template is executed with that same `OperatorImage`. -/
theorem main_operatorImage {T : Type} (env : Env T) (o : Options) (fs : FS) :
    (o.ImageSHA256 = false →
      fetchImageSHA256 env o = ([], .ok o) ∧
      (∀ img, Event.resolverInvoked img ∉ (main env o fs).events) ∧
      ∀ n d, Event.templateExecuted n d ∈ (main env o fs).events →
        d.OperatorImage = o.Image) ∧
    (∀ s, o.ImageSHA256 = true → env.docker o.Image = (s, true) →
      fetchImageSHA256 env o
        = ([.resolverInvoked o.Image], .ok { o with Image := TrimSpace s }) ∧
      ∀ n d, Event.templateExecuted n d ∈ (main env o fs).events →
        d.OperatorImage = TrimSpace s) := by
  constructor
  · intro hp
    have hf : fetchImageSHA256 env o = ([], .ok o) := by
      unfold fetchImageSHA256; simp [hp]
    refine ⟨hf, ?_, ?_⟩
    · intro img hmem
      rcases main_events env o fs _ hmem with ⟨_, h1⟩ | ⟨_, _, _, hr⟩ | h3
      · rw [hp] at h1; cases h1
      · rcases hr with ⟨_, _, h1⟩ | ⟨_, _, h1⟩ <;> cases h1
      · cases h3
    · intro n d hmem
      obtain ⟨ev1, o1, hf1, rfl⟩ := main_executed_data env o fs n d hmem
      rw [hf] at hf1
      cases hf1
      rfl
  · intro s hp hd
    have hf : fetchImageSHA256 env o
        = ([.resolverInvoked o.Image], .ok { o with Image := TrimSpace s }) := by
      unfold fetchImageSHA256
      dsimp only
      rw [if_pos hp, hd]
      rfl
    refine ⟨hf, ?_⟩
    intro n d hmem
    obtain ⟨ev1, o1, hf1, rfl⟩ := main_executed_data env o fs n d hmem
    rw [hf] at hf1
    cases hf1
    rfl

theorem main_operatorImage_witness :
    TrimSpace "arangodb/arangodb-operator@sha256:abc\n" = "arangodb/arangodb-operator@sha256:abc" ∧
    Event.templateExecuted "deployment.yaml"
        (templateOptions
          { defaultOptions with Image := "arangodb/arangodb-operator@sha256:abc" })
      ∈ (main exampleEnv defaultOptions exampleFS).events ∧
    (fetchImageSHA256 exampleEnv defaultOptions
        = ([.resolverInvoked defaultOptions.Image],
            .ok { defaultOptions with
              Image := TrimSpace "arangodb/arangodb-operator@sha256:abc\n" }) ∧
      ∀ n d, Event.templateExecuted n d ∈ (main exampleEnv defaultOptions exampleFS).events →
        d.OperatorImage = TrimSpace "arangodb/arangodb-operator@sha256:abc\n") ∧
    (fetchImageSHA256 exampleEnv unpinnedOptions = ([], .ok unpinnedOptions) ∧
      (∀ img, Event.resolverInvoked img ∉ (main exampleEnv unpinnedOptions exampleFS).events) ∧
      ∀ n d, Event.templateExecuted n d ∈ (main exampleEnv unpinnedOptions exampleFS).events →
        d.OperatorImage = unpinnedOptions.Image) :=
  ⟨by decide, by decide,
    (main_operatorImage exampleEnv defaultOptions exampleFS).2
      "arangodb/arangodb-operator@sha256:abc\n" (by decide) (by rfl),
    (main_operatorImage exampleEnv unpinnedOptions exampleFS).1 (by decide)⟩

/-- C7, as stated, fails: with pinning on and a resolver that exits with
status zero and prints only white space, the run is not aborted; both
templates are executed with the empty image reference and the manifest is
written. -/
theorem main_blank_resolver_counterexample :
    blankResolverEnv.docker defaultOptions.Image = (" \n", true) ∧
    (main blankResolverEnv defaultOptions exampleFS).fatal = none ∧
    Event.templateExecuted "deployment.yaml" (templateOptions { defaultOptions with Image := "" })
      ∈ (main blankResolverEnv defaultOptions exampleFS).events ∧
    (main blankResolverEnv defaultOptions exampleFS).fs.files.lookup
        "/repo/manifests/arango-operator.yaml"
      = some "## rbac.yaml\nnamespace: default\n\n---\n\n## deployment.yaml\nimage: \n" := by
  refine ⟨by rfl, by decide, by decide, by decide⟩

/-- C7, amended: with digest pinning on, a resolver that exits non-zero ends
the run with a fatal status, no template is read or executed, and the file
system is left as it was.  A resolver that exits with status zero is never
an error, whatever it prints: once the option check has passed, the run goes
on to read the first template, and every template is executed with the
trimmed output as image, also when that is empty. -/
theorem main_resolver_exit {T : Type} (env : Env T) (o : Options) (fs : FS)
    (hp : o.ImageSHA256 = true) :
    ((env.docker o.Image).2 = false →
      (main env o fs).exitStatus = 1 ∧ (main env o fs).fs = fs ∧
      ∀ e ∈ (main env o fs).events, e.isTemplateCall = false ∧ e.isWriterCall = false) ∧
    ((env.docker o.Image).2 = true → checkOptions o = none →
      Event.templateRead (filepath.Join o.TemplatesDir "rbac.yaml") ∈ (main env o fs).events ∧
      (∀ out, (main env o fs).fatal ≠ some (.fetchImageSHA256 out)) ∧
      ∀ n d, Event.templateExecuted n d ∈ (main env o fs).events →
        d.OperatorImage = TrimSpace (env.docker o.Image).1) := by
  constructor
  · intro hd
    have hf : fetchImageSHA256 env o
        = ([.resolverInvoked o.Image], .error (.fetchImageSHA256 (env.docker o.Image).1)) := by
      unfold fetchImageSHA256
      dsimp only
      rw [if_pos hp, hd]
      rfl
    rcases main_cases env o fs with ⟨f, _, hm⟩ | ⟨_, ev, f, hf1, hm⟩ |
      ⟨_, ev1, o1, ev2, f, hf1, _, _⟩ | ⟨_, ev1, o1, ev2, output, hf1, _, _⟩
    · rw [hm]; simp [Run.exitStatus]
    · rw [hm]
      refine ⟨by simp [Run.exitStatus], rfl, ?_⟩
      intro e he
      rw [(fetchImageSHA256_events env o e (by rw [hf1]; exact he)).1]
      exact ⟨rfl, rfl⟩
    · rw [hf] at hf1; cases hf1
    · rw [hf] at hf1; cases hf1
  · intro hd hc
    have hf : fetchImageSHA256 env o
        = ([.resolverInvoked o.Image],
            .ok { o with Image := TrimSpace (env.docker o.Image).1 }) := by
      unfold fetchImageSHA256
      dsimp only
      rw [if_pos hp, if_pos hd]
    refine ⟨?_, ?_, ?_⟩
    · rcases main_cases env o fs with ⟨f, hc1, _⟩ | ⟨_, ev, f, hf1, _⟩ |
        ⟨_, ev1, o1, ev2, f, hf1, hpt, hm⟩ | ⟨_, ev1, o1, ev2, output, hf1, hpt, hm⟩
      · rw [hc] at hc1; cases hc1
      · rw [hf] at hf1; cases hf1
      · rw [hf] at hf1
        cases hf1
        rw [hm]
        apply List.mem_append_right
        have h2 : ev2 = (processTemplates env fs o.TemplatesDir
            (templateOptions { o with Image := TrimSpace (env.docker o.Image).1 })
            templateNames 0 "").1 := by rw [hpt]
        rw [h2, templateNames]
        unfold processTemplates
        split <;> simp
      · rw [hf] at hf1
        cases hf1
        rw [hm]
        apply List.mem_append_left
        apply List.mem_append_right
        have h2 : ev2 = (processTemplates env fs o.TemplatesDir
            (templateOptions { o with Image := TrimSpace (env.docker o.Image).1 })
            templateNames 0 "").1 := by rw [hpt]
        rw [h2, templateNames]
        unfold processTemplates
        split <;> simp
    · intro out hfat
      rcases main_cases env o fs with ⟨f, hc1, _⟩ | ⟨_, ev, f, hf1, _⟩ |
        ⟨_, ev1, o1, ev2, f, hf1, hpt, hm⟩ | ⟨_, ev1, o1, ev2, output, hf1, hpt, hm⟩
      · rw [hc] at hc1; cases hc1
      · rw [hf] at hf1; cases hf1
      · rw [hm] at hfat
        obtain ⟨name, _, hname, _⟩ := processTemplates_error env fs o1.TemplatesDir
          (templateOptions o1) templateNames 0 "" f (by rw [hpt])
        rw [hname] at hfat
        cases hfat
      · rw [hm] at hfat
        rcases saveOutput_fatal env fs o1.OutputFile output _ hfat with h | h | h <;> cases h
    · intro n d hmem
      obtain ⟨ev1, o1, hf1, rfl⟩ := main_executed_data env o fs n d hmem
      rw [hf] at hf1
      cases hf1
      rfl

theorem main_resolver_exit_witness :
    ((main failingResolverEnv defaultOptions exampleFS).exitStatus = 1 ∧
      (main failingResolverEnv defaultOptions exampleFS).fs = exampleFS ∧
      ∀ e ∈ (main failingResolverEnv defaultOptions exampleFS).events,
        e.isTemplateCall = false ∧ e.isWriterCall = false) ∧
    (main failingResolverEnv defaultOptions exampleFS).fatal
      = some (.fetchImageSHA256 "Error: No such object\n") :=
  ⟨(main_resolver_exit failingResolverEnv defaultOptions exampleFS (by decide)).1 (by decide),
    by decide⟩

/-! ## Configuration -/

/-- C9: the run ends at the option check exactly when the output path, the
namespace or the image option is the empty string, whatever the other
options are; when it ends there, nothing has been done: no resolver call, no
template read, no writer call, and the file system is as it was. -/
theorem main_config_error_iff {T : Type} (env : Env T) (o : Options) (fs : FS) :
    ((∃ f, (main env o fs).fatal = some f ∧ f.isConfigError = true)
      ↔ (o.OutputFile = "" ∨ o.Namespace = "" ∨ o.Image = "")) ∧
    ((o.OutputFile = "" ∨ o.Namespace = "" ∨ o.Image = "") →
      (main env o fs).events = [] ∧ (main env o fs).fs = fs) := by
  have hnone := checkOptions_eq_none o
  rcases main_cases env o fs with ⟨f, hc, hm⟩ | ⟨hc, ev, f, hf, hm⟩ |
    ⟨hc, ev1, o1, ev2, f, hf, hpt, hm⟩ | ⟨hc, ev1, o1, ev2, output, hf, hpt, hm⟩
  · have hempty : o.OutputFile = "" ∨ o.Namespace = "" ∨ o.Image = "" := by
      by_contra hcon
      push_neg at hcon
      rw [hnone.mpr hcon] at hc
      cases hc
    rw [hm]
    exact ⟨⟨fun _ => hempty, fun _ => ⟨f, rfl, checkOptions_isConfigError o f hc⟩⟩,
      fun _ => ⟨rfl, rfl⟩⟩
  all_goals
    have hne := hnone.mp hc
    have hnot : ¬ (o.OutputFile = "" ∨ o.Namespace = "" ∨ o.Image = "") := by
      rintro (h | h | h)
      · exact hne.1 h
      · exact hne.2.1 h
      · exact hne.2.2 h
    refine ⟨⟨?_, fun h => absurd h hnot⟩, fun h => absurd h hnot⟩
    rintro ⟨g, hg, hcfg⟩
    rw [hm] at hg
  · obtain ⟨_, _, _, hfe⟩ := fetchImageSHA256_error env o ev f hf
    simp only [Option.some.injEq] at hg
    rw [← hg, hfe] at hcfg
    cases hcfg
  · obtain ⟨name, _, hname, _⟩ := processTemplates_error env fs o1.TemplatesDir
      (templateOptions o1) templateNames 0 "" f (by rw [hpt])
    simp only [Option.some.injEq] at hg
    rw [← hg, hname] at hcfg
    cases hcfg
  · rcases saveOutput_fatal env fs o1.OutputFile output g hg with h | h | h <;>
      · rw [h] at hcfg
        cases hcfg

theorem main_config_error_iff_witness :
    (main exampleEnv { defaultOptions with Namespace := "" } exampleFS).fatal
      = some .namespaceNotSpecified ∧
    (main exampleEnv { defaultOptions with Namespace := "" } exampleFS).events = [] ∧
    (main exampleEnv { defaultOptions with Namespace := "" } exampleFS).fs = exampleFS :=
  ⟨by decide,
    (main_config_error_iff exampleEnv { defaultOptions with Namespace := "" } exampleFS).2
      (Or.inr (Or.inl (by decide)))⟩

/-- C10: the record bound to the templates copies `Namespace`,
`OperatorName`, `ImagePullPolicy` and `RBAC` from the options, and its
`ClusterRoleName` and `ClusterRoleBindingName` are the constant
`"arango-operator"` whatever the options are; the same holds of the record
passed to every `Execute` call of a run. -/
theorem templateOptions_fields {T : Type} (env : Env T) (o : Options) (fs : FS) :
    ((templateOptions o).Namespace = o.Namespace ∧
      (templateOptions o).OperatorName = o.OperatorName ∧
      (templateOptions o).ImagePullPolicy = o.ImagePullPolicy ∧
      (templateOptions o).RBAC = o.RBAC ∧
      (templateOptions o).ClusterRoleName = "arango-operator" ∧
      (templateOptions o).ClusterRoleBindingName = "arango-operator") ∧
    (∀ name : String,
      (templateOptions { o with OperatorName := name }).ClusterRoleName
        = (templateOptions o).ClusterRoleName ∧
      (templateOptions { o with OperatorName := name }).ClusterRoleBindingName
        = (templateOptions o).ClusterRoleBindingName) ∧
    (∀ n d, Event.templateExecuted n d ∈ (main env o fs).events →
      d.Namespace = o.Namespace ∧ d.OperatorName = o.OperatorName ∧
      d.ImagePullPolicy = o.ImagePullPolicy ∧ d.RBAC = o.RBAC ∧
      d.ClusterRoleName = "arango-operator" ∧
      d.ClusterRoleBindingName = "arango-operator") := by
  refine ⟨⟨rfl, rfl, rfl, rfl, rfl, rfl⟩, fun _ => ⟨rfl, rfl⟩, ?_⟩
  intro n d hmem
  obtain ⟨ev1, o1, hf, rfl⟩ := main_executed_data env o fs n d hmem
  obtain ⟨_, _, h3, h4, h5, h6⟩ := fetchImageSHA256_fields env o ev1 o1 hf
  exact ⟨h3, h5, h4, h6, rfl, rfl⟩

theorem templateOptions_fields_witness :
    Event.templateExecuted "rbac.yaml"
        (templateOptions { unpinnedOptions with OperatorName := "my-operator" })
      ∈ (main exampleEnv { unpinnedOptions with OperatorName := "my-operator" }
          exampleFS).events ∧
    (templateOptions { unpinnedOptions with OperatorName := "my-operator" }).OperatorName
      = "my-operator" ∧
    (templateOptions { unpinnedOptions with OperatorName := "my-operator" }).ClusterRoleName
      = "arango-operator" ∧
    (templateOptions
        { unpinnedOptions with OperatorName := "my-operator" }).ClusterRoleBindingName
      = "arango-operator" :=
  have hmem : Event.templateExecuted "rbac.yaml"
      (templateOptions { unpinnedOptions with OperatorName := "my-operator" })
      ∈ (main exampleEnv { unpinnedOptions with OperatorName := "my-operator" }
          exampleFS).events := by decide
  have h := (templateOptions_fields exampleEnv
    { unpinnedOptions with OperatorName := "my-operator" } exampleFS).2.2 _ _ hmem
  ⟨hmem, h.2.1, h.2.2.2.2.1, h.2.2.2.2.2⟩

/-! ## Output Writer -/

/-- C8, the code at the failing input: the writer passes the last element of
the absolute path (`filepath.Base`), not its parent directory, to
`os.MkdirAll`.  With the parent `/repo/out` absent, a directory
`/repo/manifest.yaml` is created instead and the write fails; with the parent
present the same call succeeds; and an output path directly in the working
directory always fails, because the directory just created has its name. -/
theorem saveOutput_creates_base_not_parent :
    saveOutput exampleEnv ⟨["/", "/repo"], []⟩ "out/manifest.yaml" "x"
      = ⟨⟨["/", "/repo", "/repo/manifest.yaml"], []⟩,
          [.mkdirAll "manifest.yaml", .writeFile "/repo/out/manifest.yaml" "x"],
          some .writeOutputFile⟩ ∧
    saveOutput exampleEnv ⟨["/", "/repo", "/repo/out"], []⟩ "out/manifest.yaml" "x"
      = ⟨⟨["/", "/repo", "/repo/out", "/repo/manifest.yaml"], [("/repo/out/manifest.yaml", "x")]⟩,
          [.mkdirAll "manifest.yaml", .writeFile "/repo/out/manifest.yaml" "x"], none⟩ ∧
    (saveOutput exampleEnv ⟨["/", "/repo"], []⟩ "manifest.yaml" "x").fatal
      = some .writeOutputFile := by
  refine ⟨by decide, by decide, by decide⟩

end ManifestBuilder
